import Mathlib

/-!
Verification of the Worker Control Plane of the glean-indexing-sdk repository
(`src/glean/indexing/worker/`: `main.py`, `executor.py`, `discovery.py`,
`protocol.py`) against its natural-language specification.

The Python code is shallowly embedded: pure helpers become Lean functions,
the executor's cooperative-concurrency behaviour is modelled by a tick
counter that advances at every `await` point together with an abort
schedule saying at which tick the external `abort()` call runs, and
JSON values are modelled by an inductive `JValue` whose objects and arrays
are cons-encoded so that decidable equality is derivable.  `log`
notifications (`self.log(...)` in the source) are not part of the modelled
event trace: no claim counts or inspects them.  Wall-clock durations and
uuid generation are likewise abstracted (durations are dropped from event
payloads; the execution id is a parameter).
-/

namespace GleanWorker

/-- JSON-like values. Objects and arrays are cons-encoded (`objCons` /
`arrCons`) instead of carrying a `List`, so that `DecidableEq` can be
derived. Equality is structural; Python's order-insensitive dict equality
is not modelled (no claim depends on dict-valued fields compared across
different key orders). -/
inductive JValue where
  | null : JValue
  | bool (b : Bool) : JValue
  | num (n : Int) : JValue
  | str (s : String) : JValue
  | arrNil : JValue
  | arrCons (head tail : JValue) : JValue
  | objNil : JValue
  | objCons (key : String) (value rest : JValue) : JValue
deriving DecidableEq, Repr

/-- Python dictionaries with string keys (the shape of every record flowing
through the pipeline) are association lists. -/
abbrev PyDict := List (String × JValue)

/-- Build a `JValue` object from an association list. -/
def JValue.dict : List (String × JValue) → JValue
  | [] => .objNil
  | (k, v) :: rest => .objCons k v (JValue.dict rest)

/-- View of a cons-encoded object as an association list (empty on
non-objects). -/
def JValue.dictFields : JValue → List (String × JValue)
  | .objCons k v rest => (k, v) :: rest.dictFields
  | _ => []

/-- Python `isinstance(value, dict)`. -/
def JValue.isDict : JValue → Bool
  | .objNil => true
  | .objCons _ _ _ => true
  | _ => false

/-- Python `d.get(k)` on a dict: first binding of the key, if any. -/
def lookupField (r : PyDict) (k : String) : Option JValue :=
  match r with
  | [] => none
  | (k2, v) :: rest => if k2 = k then some v else lookupField rest k

/-- Python `str(...)` on a JSON-like value. Renderings of composite values
are abbreviated; no claim inspects them. -/
def pyStr : JValue → String
  | .null => "None"
  | .bool true => "True"
  | .bool false => "False"
  | .num n => toString n
  | .str s => s
  | .arrNil | .arrCons _ _ => "<list>"
  | .objNil | .objCons _ _ _ => "<dict>"

/-- Whether the character list starts with the given pattern. -/
def charsStartWith : List Char → List Char → Bool
  | _, [] => true
  | [], _ :: _ => false
  | c :: cs, p :: ps => c = p && charsStartWith cs ps

/-- Whether the pattern occurs in the character list. -/
def charsContain (cs pat : List Char) : Bool :=
  match cs with
  | [] => charsStartWith [] pat
  | c :: rest => charsStartWith (c :: rest) pat || charsContain rest pat

/-- Python `pat in s` substring test (for the non-empty patterns the worker
uses: `Connector`, `DataSource`, `DataClient`, `url`, `base_url`,
`logger`). -/
def strContains (s pat : String) : Bool := charsContain s.toList pat.toList

/-- Python `s.upper()` (over the letters appearing in parameter names). -/
def pyUpper (s : String) : String := String.mk (s.toList.map Char.toUpper)

/-- Python `s.lower()`. -/
def pyLower (s : String) : String := String.mk (s.toList.map Char.toLower)

/-- Python `s.startswith("_")`. -/
def startsWithUnderscore (s : String) : Bool :=
  match s.toList with
  | [] => false
  | c :: _ => c = '_'

/- ### JSON-RPC protocol (`protocol.py`) -/

/-- Error codes from `protocol.py`'s `ErrorCode` enum. -/
def ErrorCode.PARSE_ERROR : Int := -32700
def ErrorCode.INVALID_REQUEST : Int := -32600
def ErrorCode.METHOD_NOT_FOUND : Int := -32601
def ErrorCode.INVALID_PARAMS : Int := -32602
def ErrorCode.INTERNAL_ERROR : Int := -32603
def ErrorCode.CONNECTOR_NOT_FOUND : Int := -32000
def ErrorCode.EXECUTION_ERROR : Int := -32001
def ErrorCode.PROJECT_ERROR : Int := -32002

/-- JSON-RPC error object (`JsonRpcError` in `protocol.py`). -/
structure JsonRpcError where
  code : Int
  message : String
deriving DecidableEq, Repr

/-- JSON-RPC response (`JsonRpcResponse` in `protocol.py`): `id` is `none`
for Python `None` (serialized as JSON null). -/
structure JsonRpcResponse where
  id : Option JValue
  result : Option JValue := none
  error : Option JsonRpcError := none
deriving DecidableEq, Repr

/-- `JsonRpcResponse.success` classmethod. -/
def JsonRpcResponse.success (id : Option JValue) (result : JValue) : JsonRpcResponse :=
  { id := id, result := some result }

/-- `JsonRpcResponse.error_response` classmethod. -/
def JsonRpcResponse.mkError (id : Option JValue) (code : Int) (message : String) :
    JsonRpcResponse :=
  { id := id, error := some { code := code, message := message } }

/- ### Execution state machine and control primitives (`executor.py`) -/

/-- The `ExecutionState` enum. -/
inductive ExecutionState where
  | pending
  | running
  | paused
  | completed
  | aborted
  | error
deriving DecidableEq, Repr

/-- The control-relevant fields of a `ConnectorExecutor`: the state machine
value, the two `asyncio.Event`s (`_pause_event`, `_step_event`, modelled by
their set/cleared flag), the `_abort_requested` flag, the execution id and
the three counters. -/
structure ConnectorExecutorState where
  executionId : Option String
  state : ExecutionState
  pauseEventSet : Bool
  stepEventSet : Bool
  abortRequested : Bool
  totalRecords : Nat
  successfulRecords : Nat
  failedRecords : Nat
deriving DecidableEq, Repr

/-- `ConnectorExecutor.__init__`: pending state, pause event set (start
unpaused), step event cleared, no abort, zero counters, no execution id. -/
def ConnectorExecutorState.init : ConnectorExecutorState :=
  { executionId := none
    state := .pending
    pauseEventSet := true
    stepEventSet := false
    abortRequested := false
    totalRecords := 0
    successfulRecords := 0
    failedRecords := 0 }

/-- `ConnectorExecutor.pause`: clear the pause event and set the state to
`paused` (no guard on the current state). -/
def ConnectorExecutorState.pause (s : ConnectorExecutorState) : ConnectorExecutorState :=
  { s with pauseEventSet := false, state := .paused }

/-- `ConnectorExecutor.resume`: set the pause event; move to `running` only
from `paused`. -/
def ConnectorExecutorState.resume (s : ConnectorExecutorState) : ConnectorExecutorState :=
  let s := { s with pauseEventSet := true }
  if s.state = .paused then { s with state := .running } else s

/-- `ConnectorExecutor.step`: set the step event. -/
def ConnectorExecutorState.step (s : ConnectorExecutorState) : ConnectorExecutorState :=
  { s with stepEventSet := true }

/-- `ConnectorExecutor.abort`: set the abort flag and set both events so
blocked iterations unblock. -/
def ConnectorExecutorState.abort (s : ConnectorExecutorState) : ConnectorExecutorState :=
  { s with abortRequested := true, pauseEventSet := true, stepEventSet := true }

/- ### Dispatcher (`main.py`, `WorkerServer`) -/

/-- The dispatcher-owned mutable state relevant to the control claims: the
single executor handle (`self.executor`, `None` before the first
`execute`). -/
structure WorkerState where
  executor : Option ConnectorExecutorState
deriving DecidableEq, Repr

/-- Parameters of an `execute` request as read by `_handle_execute`:
`params.get("connector")` (`none` for a missing key) and the config
fields. -/
structure ExecuteParams where
  connector : Option String
  step_mode : Bool := false
  mock_data_path : Option String := none
deriving DecidableEq, Repr

/-- Python truthiness of `connector_name` (`not connector_name` is true for
a missing key, `None`, or the empty string). -/
def connectorNameFalsy : Option String → Bool
  | none => true
  | some s => s = ""

/-- Result of `WorkerServer._handle_execute`: the new dispatcher state, the
JSON-RPC response, and whether a new background execution task was
created. -/
structure HandleExecuteResult where
  state : WorkerState
  response : JsonRpcResponse
  startedNewExecution : Bool
deriving DecidableEq, Repr

/-- `WorkerServer._handle_execute`: reject a falsy `connector` param with
`INVALID_PARAMS`; otherwise unconditionally create a fresh executor
(overwriting `self.executor`), start the execution task, and answer with
`{execution_id, status: "started"}`.  The `execution_id` in the response is
the fresh executor's `execution_id`, which is still `None` because
`execute` only assigns it once the background task first runs. -/
def handleExecute (s : WorkerState) (requestId : JValue) (params : ExecuteParams) :
    HandleExecuteResult :=
  if connectorNameFalsy params.connector then
    { state := s
      response := JsonRpcResponse.mkError (some requestId) ErrorCode.INVALID_PARAMS
        "Missing \x27connector\x27 parameter"
      startedNewExecution := false }
  else
    let freshExecutor := ConnectorExecutorState.init
    { state := { s with executor := some freshExecutor }
      response := JsonRpcResponse.success (some requestId)
        (JValue.dict [("execution_id", JValue.null), ("status", JValue.str "started")])
      startedNewExecution := true }

/-- `WorkerServer._handle_pause`: `EXECUTION_ERROR` when no executor handle
exists; otherwise call `executor.pause()` and answer
`{status: "paused"}`. -/
def handlePause (s : WorkerState) (requestId : JValue) :
    WorkerState × JsonRpcResponse :=
  match s.executor with
  | none =>
      (s, JsonRpcResponse.mkError (some requestId) ErrorCode.EXECUTION_ERROR
        "No execution in progress")
  | some ex =>
      ({ s with executor := some ex.pause },
        JsonRpcResponse.success (some requestId) (JValue.dict [("status", JValue.str "paused")]))

/- ### Main-loop framing (`WorkerServer.run`) -/

/-- One item dequeued from the stdin queue: a 1-second timeout (loop back to
poll the running flag), EOF (`None` line), a blank line, a line that is not
valid JSON, or a line parsing to a JSON object (the shape the framing
checks inspect; claims about framing concern objects). -/
inductive StdinItem where
  | timeout
  | eof
  | blankLine
  | malformedLine
  | jsonObjectLine (fields : PyDict)
deriving Repr

/-- What one main-loop iteration does with the dequeued item. -/
inductive LoopAction where
  | exitLoop
  | continueLoop (response : Option JsonRpcResponse)
  | dispatch (fields : PyDict)
deriving DecidableEq, Repr

/-- Python `"method" in data` / `"id" in data` on a JSON object. -/
def hasKey (fields : PyDict) (k : String) : Bool := (lookupField fields k).isSome

/-- The framing part of one iteration of `WorkerServer.run`: timeout and
blank lines loop, EOF exits, a JSON parse failure answers `PARSE_ERROR`
with a `None` id and loops, an object missing `method` or `id` answers
`INVALID_REQUEST` with `data.get("id")` as the response id and loops, and a
well-formed request is dispatched. -/
def loopStep (item : StdinItem) : LoopAction :=
  match item with
  | .timeout => .continueLoop none
  | .eof => .exitLoop
  | .blankLine => .continueLoop none
  | .malformedLine =>
      .continueLoop (some (JsonRpcResponse.mkError none ErrorCode.PARSE_ERROR "Invalid JSON"))
  | .jsonObjectLine fields =>
      if hasKey fields "method" && hasKey fields "id" then
        .dispatch fields
      else
        .continueLoop (some (JsonRpcResponse.mkError (lookupField fields "id")
          ErrorCode.INVALID_REQUEST "Missing \x27method\x27 or \x27id\x27"))

/- ### Static discovery (`discovery.py`, `ProjectDiscovery`) -/

/-- Python AST expressions in base-class position (`ast.Name`,
`ast.Attribute`, `ast.Subscript`; `sliceText` is `ast.unparse(base.slice)`,
the textual form of the subscript argument). -/
inductive PyExpr where
  | name (id : String) : PyExpr
  | attribute (value : PyExpr) (attr : String) : PyExpr
  | subscript (value : PyExpr) (sliceText : String) : PyExpr
  | otherExpr : PyExpr
deriving DecidableEq, Repr

/- Python AST statements, restricted to the node kinds discovery inspects:
class definitions, (async) function definitions, bare string-literal
expression statements (docstrings) and anything else.  The body lists are a
mutually defined list type so that structural recursion over the nested
tree works. -/
mutual
inductive PyStmt where
  | classDef (name : String) (bases : List PyExpr) (body : PyStmtList) : PyStmt
  | funcDef (name : String) (body : PyStmtList) : PyStmt
  | asyncFuncDef (name : String) (body : PyStmtList) : PyStmt
  | strExpr (s : String) : PyStmt
  | otherStmt : PyStmt

inductive PyStmtList where
  | nil : PyStmtList
  | cons (head : PyStmt) (tail : PyStmtList) : PyStmtList
end

/-- Converts the mutual list type to an ordinary list. -/
def PyStmtList.toList : PyStmtList → List PyStmt
  | .nil => []
  | .cons h t => h :: t.toList

/-- Builds the mutual list type from an ordinary list (for examples). -/
def PyStmtList.ofList : List PyStmt → PyStmtList
  | [] => .nil
  | h :: t => .cons h (PyStmtList.ofList t)

mutual
/-- Size measure used for termination of the breadth-first walk. -/
def PyStmt.weight : PyStmt → Nat
  | .classDef _ _ body => body.weight + 1
  | .funcDef _ body => body.weight + 1
  | .asyncFuncDef _ body => body.weight + 1
  | .strExpr _ => 1
  | .otherStmt => 1

/-- Size measure for statement lists. -/
def PyStmtList.weight : PyStmtList → Nat
  | .nil => 0
  | .cons h t => h.weight + t.weight
end

/-- Child statements of an AST node (the statements of its body), as
traversed by `ast.walk`; statement-free nodes have none. -/
def PyStmt.children : PyStmt → List PyStmt
  | .classDef _ _ body => body.toList
  | .funcDef _ body => body.toList
  | .asyncFuncDef _ body => body.toList
  | .strExpr _ => []
  | .otherStmt => []

/-- Total weight of a list of statements. -/
def stmtsWeight (l : List PyStmt) : Nat := (l.map PyStmt.weight).sum

theorem stmtsWeight_toList : ∀ l : PyStmtList, stmtsWeight l.toList = l.weight
  | .nil => rfl
  | .cons h t => by
      have ih := stmtsWeight_toList t
      simp only [PyStmtList.toList, stmtsWeight, PyStmtList.weight, List.map_cons,
        List.sum_cons] at *
      omega

theorem stmtsWeight_children_lt (s : PyStmt) : stmtsWeight s.children < s.weight := by
  cases s <;>
    simp only [PyStmt.children, PyStmt.weight, stmtsWeight_toList] <;>
    simp [stmtsWeight]

theorem weight_pos (s : PyStmt) : 0 < s.weight := by
  cases s <;> simp [PyStmt.weight]

theorem stmtsWeight_flatMap_le (l : List PyStmt) :
    stmtsWeight (l.flatMap PyStmt.children) ≤ stmtsWeight l := by
  induction l with
  | nil => simp [stmtsWeight]
  | cons h t ih =>
      have hh := stmtsWeight_children_lt h
      simp only [List.flatMap_cons, stmtsWeight, List.map_append, List.sum_append,
        List.map_cons, List.sum_cons] at *
      omega

theorem stmtsWeight_flatMap_lt (h : PyStmt) (t : List PyStmt) :
    stmtsWeight ((h :: t).flatMap PyStmt.children) < stmtsWeight (h :: t) := by
  have hh := stmtsWeight_children_lt h
  have ht := stmtsWeight_flatMap_le t
  simp only [List.flatMap_cons, stmtsWeight, List.map_append, List.sum_append,
    List.map_cons, List.sum_cons] at *
  omega

/-- Breadth-first traversal of the statement forest, mirroring `ast.walk`:
yield the pending nodes, then walk all their children.  Restricted to
statement nodes (the only nodes that can be `ClassDef`s in this model). -/
def walkStmts (pending : List PyStmt) : List PyStmt :=
  match pending with
  | [] => []
  | h :: t => (h :: t) ++ walkStmts ((h :: t).flatMap PyStmt.children)
termination_by stmtsWeight pending
decreasing_by exact stmtsWeight_flatMap_lt h t

/-- `ProjectDiscovery._get_base_name`: extract the leaf textual name of a
base-class expression (bare name, subscripted name or attribute, dotted
attribute; otherwise the empty string). -/
def getBaseName : PyExpr → String
  | .name id => id
  | .subscript (.name id) _ => id
  | .subscript (.attribute _ a) _ => a
  | .subscript _ _ => ""
  | .attribute _ a => a
  | .otherExpr => ""

/-- Names of all (async) function definitions of a class body
(`_is_connector_class`'s `method_names` set, underscore names included). -/
def allMethodNames (body : List PyStmt) : List String :=
  body.filterMap fun st =>
    match st with
    | .funcDef n _ => some n
    | .asyncFuncDef n _ => some n
    | _ => none

/-- The four characteristic connector method names. -/
def connectorMethods : List String := ["get_data", "transform", "index_data", "post_to_index"]

/-- `ProjectDiscovery._is_connector_class`: a class is a candidate when some
base leaf name contains `Connector`, `DataSource` or `DataClient`, or its
body declares a method named `get_data`, `transform`, `index_data` or
`post_to_index`. -/
def isConnectorClass (bases : List PyExpr) (body : List PyStmt) : Bool :=
  bases.any (fun b =>
    ["Connector", "DataSource", "DataClient"].any fun ind => strContains (getBaseName b) ind)
  || (allMethodNames body).any (fun n => connectorMethods.contains n)

/-- A discovered class record (`ConnectorInfo` dataclass in
`discovery.py`). -/
structure ConnectorInfo where
  class_name : String
  module_path : String
  file_path : String
  source_type : Option String := none
  base_classes : List String := []
  methods : List String := []
  docstring : Option String := none
  category : String := "connector"
  data_clients : List String := []
deriving DecidableEq, Repr

/-- `ProjectDiscovery._extract_type_parameter`: the rendered subscript
argument of the first subscripted base, if any. -/
def extractTypeParameter : List PyExpr → Option String
  | [] => none
  | .subscript _ t :: _ => some t
  | _ :: rest => extractTypeParameter rest

/-- Public method names of a class body (underscore-led names excluded), as
collected by `_extract_connector_info`. -/
def publicMethodNames (body : List PyStmt) : List String :=
  body.filterMap fun st =>
    match st with
    | .funcDef n _ => if startsWithUnderscore n then none else some n
    | .asyncFuncDef n _ => if startsWithUnderscore n then none else some n
    | _ => none

/-- `ast.get_docstring`: the class's leading string-literal statement, if
present (whitespace cleaning abstracted). -/
def getDocstring (body : List PyStmt) : Option String :=
  match body with
  | .strExpr s :: _ => some s
  | _ => none

/-- `ProjectDiscovery._extract_connector_info` for a class of a file whose
absolute path and project-relative dotted module path are given. -/
def extractConnectorInfo (filePath modulePath : String) (name : String)
    (bases : List PyExpr) (body : List PyStmt) : ConnectorInfo :=
  { class_name := name
    module_path := modulePath
    file_path := filePath
    source_type := extractTypeParameter bases
    base_classes := bases.map getBaseName
    methods := publicMethodNames body
    docstring := getDocstring body }

/-- `ProjectDiscovery._parse_file_for_connectors`: every `ClassDef`
encountered by `ast.walk` over the module body that passes the candidate
rule yields a record. -/
def parseFileForConnectors (filePath modulePath : String) (moduleBody : PyStmtList) :
    List ConnectorInfo :=
  (walkStmts moduleBody.toList).filterMap fun st =>
    match st with
    | .classDef n bases body =>
        if isConnectorClass bases body.toList then
          some (extractConnectorInfo filePath modulePath n bases body.toList)
        else none
    | _ => none

/-- Whether some base leaf name of a record contains `DataClient`
(`_categorize_and_link`'s `is_data_client`). -/
def hasDataClientBase (info : ConnectorInfo) : Bool :=
  info.base_classes.any fun bc => strContains bc "DataClient"

/-- Whether some base leaf name contains `Connector` or `DataSource`
(`_categorize_and_link`'s `is_connector`, before the `not is_data_client`
conjunct). -/
def hasConnectorBase (info : ConnectorInfo) : Bool :=
  info.base_classes.any fun bc => strContains bc "Connector" || strContains bc "DataSource"

/-- The categorization loop of `_categorize_and_link`: split the discovered
classes into (connectors, data clients) in input order, assigning the
`category` field.  A class with a `DataClient` base is a data client;
otherwise it is a connector, either via a `Connector`/`DataSource` base or
by the methods-only default. -/
def categorizeClasses : List ConnectorInfo → List ConnectorInfo × List ConnectorInfo
  | [] => ([], [])
  | info :: rest =>
      let (cs, dcs) := categorizeClasses rest
      if hasDataClientBase info then
        (cs, { info with category := "data_client" } :: dcs)
      else if hasConnectorBase info then
        ({ info with category := "connector" } :: cs, dcs)
      else
        ({ info with category := "connector" } :: cs, dcs)

/-- Association-list lookup standing for Python dict indexing. -/
def lookupClients (m : List (String × List String)) (k : String) : Option (List String) :=
  match m with
  | [] => none
  | (k2, v) :: rest => if k2 = k then some v else lookupClients rest k

/-- Adding one data-client name under a `source_type` key, preserving dict
insertion order (new keys go to the end, names append to the list). -/
def insertClient (m : List (String × List String)) (st cn : String) :
    List (String × List String) :=
  match m with
  | [] => [(st, [cn])]
  | (k, v) :: rest => if k = st then (k, v ++ [cn]) :: rest else (k, v) :: insertClient rest st cn

/-- The map-building loop of `_categorize_and_link`: `source_type` → data
client class names, skipping falsy (`None` or empty) source types. -/
def buildSourceTypeMap (dcs : List ConnectorInfo) : List (String × List String) :=
  dcs.foldl
    (fun m dc =>
      match dc.source_type with
      | some st => if st = "" then m else insertClient m st dc.class_name
      | none => m)
    []

/-- The linking loop of `_categorize_and_link`: a connector whose truthy
`source_type` is a key of the map gets that key's client list; all other
connectors are left unchanged. -/
def linkConnectors (conns : List ConnectorInfo) (m : List (String × List String)) :
    List ConnectorInfo :=
  conns.map fun c =>
    match c.source_type with
    | some st =>
        if st = "" then c
        else
          match lookupClients m st with
          | some names => { c with data_clients := names }
          | none => c
    | none => c

/-- `ProjectDiscovery._categorize_and_link`: categorize, build the
source-type map from the data clients, link the connectors, and return only
the connectors. -/
def categorizeAndLink (allClasses : List ConnectorInfo) : List ConnectorInfo :=
  let (connectors, dataClients) := categorizeClasses allClasses
  linkConnectors connectors (buildSourceTypeMap dataClients)

/- ### Instantiation strategies (`ConnectorExecutor._try_instantiate_data_client`) -/

/-- A Python class as seen by the instantiate step: the constructor
parameter list excluding `self` (the empty list also models a failing
`inspect.signature`), and the behaviour of calling the class with a keyword
map, where `none` means the call raised and `some label` is the resulting
instance.  Keyword values are environment strings or Python `None`. -/
structure PyCallable where
  params : List String
  call : List (String × Option String) → Option String

/-- Environment-variable lookup (`os.environ`). -/
def lookupEnv (env : List (String × String)) (k : String) : Option String :=
  match env with
  | [] => none
  | (k2, v) :: rest => if k2 = k then some v else lookupEnv rest k

/-- First of the candidate variable names present in the environment
(`for env_var in [...]: if env_var in os.environ: ... break`). -/
def firstEnv (env : List (String × String)) : List String → Option String
  | [] => none
  | v :: rest =>
      match lookupEnv env v with
      | some value => some value
      | none => firstEnv env rest

/-- The keyword-building loop of strategy 2: for each parameter take the
upper-cased name from the environment; otherwise, for url-like names, the
first of `BASE_URL`, `DEV_DOCS_BASE_URL`, `API_URL`, `SITE_URL` present;
for logger-like names a Python `None`; otherwise omit the parameter. -/
def buildKwargs (env : List (String × String)) (params : List String) :
    List (String × Option String) :=
  params.foldl
    (fun kwargs param =>
      let paramLower := pyLower param
      match lookupEnv env (pyUpper param) with
      | some v => kwargs ++ [(param, some v)]
      | none =>
          if strContains paramLower "url" || strContains paramLower "base_url" then
            match firstEnv env ["BASE_URL", "DEV_DOCS_BASE_URL", "API_URL", "SITE_URL"] with
            | some v => kwargs ++ [(param, some v)]
            | none => kwargs
          else if strContains paramLower "logger" then kwargs ++ [(param, none)]
          else kwargs)
    []

/-- `ConnectorExecutor._try_instantiate_data_client`: strategy 1 (no-args
call) only when the parameter list is empty; strategy 2 (environment
kwargs) only when the built keyword map is non-empty; strategy 3 (every
parameter bound to `None`) as the final fallback; `none` (a null instance)
when nothing succeeded. -/
def tryInstantiateDataClient (env : List (String × String)) (cls : PyCallable) :
    Option String :=
  let params := cls.params
  let attempt1 := if params = [] then cls.call [] else none
  match attempt1 with
  | some inst => some inst
  | none =>
      let kwargs := buildKwargs env params
      let attempt2 := if kwargs = [] then none else cls.call kwargs
      match attempt2 with
      | some inst => some inst
      | none => cls.call (params.map fun p => (p, none))

/-- The keyword maps actually passed to the class by
`_try_instantiate_data_client`, in attempt order (spec-side reformulation
used by the amended claim C7). -/
def attemptedKwargMaps (env : List (String × String)) (cls : PyCallable) :
    List (List (String × Option String)) :=
  (if cls.params = [] then [[]] else [])
    ++ (if buildKwargs env cls.params = [] then [] else [buildKwargs env cls.params])
    ++ [cls.params.map fun p => (p, none)]

/-- First non-`none` element of a list of attempt results. -/
def firstSome : List (Option String) → Option String
  | [] => none
  | some v :: _ => some v
  | none :: rest => firstSome rest

/- ### Transform helpers (`executor.py`) -/

/-- A detected field mapping (the
`{"source_field": ..., "target_field": ...}` dict). -/
structure FieldMapping where
  source_field : String
  target_field : String
deriving DecidableEq, Repr

/-- `ConnectorExecutor._detect_field_mappings`: for each output entry,
either compare every nested value of a dict-valued `metadata` entry or the
top-level value itself against every input value, emitting a mapping for
each equal, non-`None` input value. -/
def detectFieldMappings (inputData outputData : PyDict) : List FieldMapping :=
  outputData.flatMap fun outEntry =>
    if outEntry.1 = "metadata" ∧ outEntry.2.isDict = true then
      outEntry.2.dictFields.flatMap fun metaEntry =>
        inputData.filterMap fun inEntry =>
          if inEntry.2 = metaEntry.2 ∧ inEntry.2 ≠ JValue.null then
            some ⟨inEntry.1, "metadata." ++ metaEntry.1⟩
          else none
    else
      inputData.filterMap fun inEntry =>
        if inEntry.2 = outEntry.2 ∧ inEntry.2 ≠ JValue.null then
          some ⟨inEntry.1, outEntry.1⟩
        else none

/-- `ConnectorExecutor._simulate_transform`; `freshId` stands for the
`str(uuid.uuid4())` default used when the input has no `id` key. -/
def simulateTransform (freshId : String) (inputData : PyDict) : PyDict :=
  [("id", (lookupField inputData "id").getD (JValue.str freshId)),
   ("title", (lookupField inputData "title").getD
      ((lookupField inputData "name").getD (JValue.str "Untitled"))),
   ("body", (lookupField inputData "body").getD
      ((lookupField inputData "content").getD (JValue.str ""))),
   ("url", (lookupField inputData "url").getD (JValue.str "")),
   ("metadata", JValue.dict (inputData.filter fun kv =>
      ¬ ["id", "title", "body", "content", "name", "url"].contains kv.1))]

/- ### The execution pipeline (`ConnectorExecutor.execute`) -/

/-- Events emitted through the notification sink (durations dropped, `log`
notifications not modelled). -/
inductive WorkerEvent where
  | phaseStart (phase : String) (totalRecords : Option Nat)
  | phaseComplete (phase : String) (recordsProcessed : Nat) (success : Bool)
      (errorMsg : Option String)
  | recordFetched (recordId : String) (index : Nat) (data : PyDict)
  | transformComplete (recordId : String) (index : Nat) (inputData outputData : PyDict)
      (fieldMappings : List FieldMapping)
  | transformError (recordId : String) (index : Nat) (inputData : PyDict)
      (errorMsg errorType : String)
  | executionComplete (executionId : String) (success : Bool)
      (totalRecords successfulRecords failedRecords : Nat)
deriving DecidableEq, Repr

/-- Cooperative-concurrency model: `tick` counts the suspension (`await`)
points passed so far; an abort schedule `some a` means the external
`abort()` call runs at tick `a` (the flag reads true at every tick from `a`
on), `none` means abort is never requested.  `abortObserved` is ghost
state recording whether any read of `self._abort_requested` returned
true. -/
structure RunState where
  tick : Nat
  state : ExecutionState
  totalRecords : Nat
  successfulRecords : Nat
  failedRecords : Nat
  events : List WorkerEvent
  abortObserved : Bool
deriving DecidableEq, Repr

/-- The value of the `_abort_requested` flag at a given tick under a
schedule. -/
def abortNow (sched : Option Nat) (tick : Nat) : Bool :=
  match sched with
  | none => false
  | some a => a ≤ tick

/-- Append one notification. -/
def emitEvent (s : RunState) (e : WorkerEvent) : RunState :=
  { s with events := s.events ++ [e] }

/-- Read the abort flag (recording a positive read in the ghost field). -/
def checkAbort (sched : Option Nat) (s : RunState) : Bool × RunState :=
  let flag := abortNow sched s.tick
  (flag, if flag then { s with abortObserved := true } else s)

/-- One suspension point (`await self._wait_for_continue()`,
`await asyncio.sleep(...)`, or an async iterator pull). -/
def passTick (s : RunState) : RunState := { s with tick := s.tick + 1 }

/-- `await self._step_pause()`: a suspension point only in step mode. -/
def stepPause (stepMode : Bool) (s : RunState) : RunState :=
  if stepMode then passTick s else s

/-- `str(record.get("id", f"record_{index}"))`. -/
def recordIdFor (record : PyDict) (index : Nat) : String :=
  pyStr ((lookupField record "id").getD (JValue.str s!"record_{index}"))

/-- The record loop of `_run_fetch_phase` (mock mode): wait at the pause
latch, break on abort, emit `record_fetched`, wait at the step gate. -/
def fetchLoop (sched : Option Nat) (stepMode : Bool) :
    List PyDict → Nat → RunState → RunState
  | [], _, s => s
  | record :: rest, index, s =>
      let s := passTick s
      let (flag, s) := checkAbort sched s
      if flag then s
      else
        let s := emitEvent s (.recordFetched (recordIdFor record index) index record)
        let s := stepPause stepMode s
        fetchLoop sched stepMode rest (index + 1) s

/-- `ConnectorExecutor._run_fetch_phase`: `phase_start` with the mock total,
the record loop, then `phase_complete` reporting `len(mock_data)`
regardless of how many records the loop actually visited. -/
def runFetchPhase (sched : Option Nat) (stepMode : Bool) (mockData : List PyDict)
    (s : RunState) : RunState :=
  let s := emitEvent s (.phaseStart "get_data" (some mockData.length))
  let s := fetchLoop sched stepMode mockData 0 s
  emitEvent s (.phaseComplete "get_data" mockData.length true none)

/-- Environment of `_run_real_fetch_phase`: whether a data client could be
found and instantiated, whether it has a `get_source_data` attribute, the
records its (sync or async) stream yields, and whether the stream raises
after yielding them (a raise on the initial `get_source_data()` call is the
empty stream raising). -/
structure RealFetchEnv where
  dataClientFound : Bool
  hasGetSourceData : Bool
  stream : List PyDict
  streamRaises : Bool
deriving DecidableEq, Repr

/-- The record loop of `_run_real_fetch_phase`, accumulating the fetched
records; also reports whether the loop broke on abort (in which case the
stream is not pulled further, so a pending stream exception never fires). -/
def realFetchLoop (sched : Option Nat) (stepMode : Bool) :
    List PyDict → Nat → List PyDict → RunState → List PyDict × Bool × RunState
  | [], _, acc, s => (acc, false, s)
  | record :: rest, index, acc, s =>
      let s := passTick s
      let (flag, s) := checkAbort sched s
      if flag then (acc, true, s)
      else
        let s := emitEvent s (.recordFetched (recordIdFor record index) index record)
        let s := stepPause stepMode s
        realFetchLoop sched stepMode rest (index + 1) (acc ++ [record]) s

/-- `ConnectorExecutor._run_real_fetch_phase`: `phase_start` with unknown
total; when no data client is available, a failed `phase_complete` and an
empty result; otherwise iterate the stream (if `get_source_data` exists),
set `total_records` unless a stream exception skipped that line, and emit
`phase_complete` with `records_processed = len(fetched)` and
`success = len(fetched) > 0`. -/
def runRealFetchPhase (sched : Option Nat) (stepMode : Bool) (env : RealFetchEnv)
    (s : RunState) : List PyDict × RunState :=
  let s := emitEvent s (.phaseStart "get_data" none)
  if ¬ env.dataClientFound then
    let s := emitEvent s (.phaseComplete "get_data" 0 false (some "No data client found"))
    ([], s)
  else
    let (fetched, s) :=
      if env.hasGetSourceData then
        let (fetched, broke, s) := realFetchLoop sched stepMode env.stream 0 [] s
        let s :=
          if broke ∨ ¬ env.streamRaises then { s with totalRecords := fetched.length }
          else s
        (fetched, s)
      else ([], s)
    let s := emitEvent s
      (.phaseComplete "get_data" fetched.length (decide (0 < fetched.length)) none)
    (fetched, s)

/-- Outcome of one `transform([record])` call on the instantiated
connector: it raised, returned a falsy output (fall back to simulation), or
returned a first output record (already serialized). -/
inductive TransformAttempt where
  | raises (errorMsg errorType : String)
  | returnsEmpty
  | returns (output : PyDict)
deriving DecidableEq, Repr

/-- Environment of `_run_transform_phase`: whether
`_try_instantiate_connector` produced an instance with a `transform`
attribute, the behaviour of each per-record `transform` call, and the fresh
uuid strings `_simulate_transform` would use per index. -/
structure TransformEnv where
  hasTransformInstance : Bool
  attempt : Nat → PyDict → TransformAttempt
  freshIds : Nat → String

/-- The outcome of the `try` body for one record: either the output dict
(via the instance's `transform`, its falsy-output simulation fallback, or
plain simulation with no instance) or the caught exception. -/
def transformOutcome (env : TransformEnv) (index : Nat) (record : PyDict) :
    Except (String × String) PyDict :=
  if env.hasTransformInstance then
    match env.attempt index record with
    | .raises m t => .error (m, t)
    | .returnsEmpty => .ok (simulateTransform (env.freshIds index) record)
    | .returns out => .ok out
  else .ok (simulateTransform (env.freshIds index) record)

/-- The record loop of `_run_transform_phase`: per record, on success emit
`transform_complete` with detected field mappings and bump
`successful_records`; on a raise bump `failed_records` and emit
`transform_error`. -/
def transformLoop (sched : Option Nat) (stepMode : Bool) (env : TransformEnv) :
    List PyDict → Nat → RunState → RunState
  | [], _, s => s
  | record :: rest, index, s =>
      let s := passTick s
      let (flag, s) := checkAbort sched s
      if flag then s
      else
        let rid := recordIdFor record index
        let s :=
          match transformOutcome env index record with
          | .ok outputData =>
              let s := emitEvent s (.transformComplete rid index record outputData
                (detectFieldMappings record outputData))
              { s with successfulRecords := s.successfulRecords + 1 }
          | .error (m, t) =>
              let s := { s with failedRecords := s.failedRecords + 1 }
              emitEvent s (.transformError rid index record m t)
        let s := stepPause stepMode s
        transformLoop sched stepMode env rest (index + 1) s

/-- `ConnectorExecutor._run_transform_phase`: `phase_start` with the record
total, the record loop, then `phase_complete` with
`records_processed = successful + failed` and `success = (failed == 0)`. -/
def runTransformPhase (sched : Option Nat) (stepMode : Bool) (env : TransformEnv)
    (records : List PyDict) (s : RunState) : RunState :=
  let s := emitEvent s (.phaseStart "transform" (some records.length))
  let s := transformLoop sched stepMode env records 0 s
  emitEvent s (.phaseComplete "transform" (s.successfulRecords + s.failedRecords)
    (decide (s.failedRecords = 0)) none)

/-- `ConnectorExecutor._run_upload_phase`: bracket a brief
`asyncio.sleep(0.1)` (one suspension point, no abort check) with
`phase_start`/`phase_complete` carrying the successful-record count. -/
def runUploadPhase (s : RunState) : RunState :=
  let s := emitEvent s (.phaseStart "post_to_index" (some s.successfulRecords))
  let s := passTick s
  emitEvent s (.phaseComplete "post_to_index" s.successfulRecords true none)

/-- Environment of one `execute` call: the class names discovery returns,
whether `load_connector_class` raised, the result of `_load_mock_data`
(its `log` output dropped; an empty list covers a missing, unreadable or
empty mock file), and the real-fetch and transform environments. -/
structure ExecEnv where
  discoveredNames : List String
  loadError : Option (String × String)
  mockData : List PyDict
  realFetch : RealFetchEnv
  transform : TransformEnv

/-- Whether `execute` re-raised an exception (after the `except` clause set
the state to `error`), or returned normally. -/
inductive ExecOutcome where
  | normal
  | raised (errorMsg errorType : String)
deriving DecidableEq, Repr

/-- The tail of `execute` after the fetch phase: the two abort checks
around the transform phase, and the upload phase; `completed` is only
assigned after the upload phase, which contains no abort check. -/
def afterFetch (sched : Option Nat) (env : ExecEnv) (stepMode : Bool)
    (fetched : List PyDict) (s : RunState) : RunState × ExecOutcome :=
  let (flag, s) := checkAbort sched s
  if flag then ({ s with state := .aborted }, .normal)
  else
    let s := runTransformPhase sched stepMode env.transform fetched s
    let (flag2, s) := checkAbort sched s
    if flag2 then ({ s with state := .aborted }, .normal)
    else
      let s := runUploadPhase s
      ({ s with state := .completed }, .normal)

/-- The state of a fresh execution at the top of `execute`: tick zero,
state `running`, zero counters, nothing emitted, abort never observed. -/
def initialRunState : RunState :=
  { tick := 0, state := .running, totalRecords := 0, successfulRecords := 0,
    failedRecords := 0, events := [], abortObserved := false }

/-- The `try`/`except` body of `execute`: look the connector up in
discovery (raising `ValueError` when absent), load its class, load mock
data, run the mock or real fetch phase, then the guarded transform and
upload phases; an escaping exception sets `error`. -/
def executeBody (sched : Option Nat) (env : ExecEnv) (connectorName : String)
    (stepMode : Bool) : RunState × ExecOutcome :=
  let s := initialRunState
  if ¬ env.discoveredNames.contains connectorName then
    ({ s with state := .error },
      ExecOutcome.raised s!"Connector \x27{connectorName}\x27 not found in project" "ValueError")
  else
    match env.loadError with
    | some (m, t) => ({ s with state := .error }, ExecOutcome.raised m t)
    | none =>
        if env.mockData = [] then
          let (fetched, s) := runRealFetchPhase sched stepMode env.realFetch s
          afterFetch sched env stepMode fetched s
        else
          let s := { s with totalRecords := env.mockData.length }
          let s := runFetchPhase sched stepMode env.mockData s
          afterFetch sched env stepMode env.mockData s

/-- `ConnectorExecutor.execute`: run the body, then (in the `finally`
block) emit exactly one `execution_complete` whose `success` is
`state == COMPLETED` and which carries the final counters. -/
def executeRun (sched : Option Nat) (env : ExecEnv) (connectorName : String)
    (stepMode : Bool) (executionId : String) : RunState × ExecOutcome :=
  let (s, outcome) := executeBody sched env connectorName stepMode
  let s := emitEvent s (.executionComplete executionId (decide (s.state = .completed))
    s.totalRecords s.successfulRecords s.failedRecords)
  (s, outcome)

/-- Event classifier: `record_fetched` notifications. -/
def isRecordFetched : WorkerEvent → Bool
  | .recordFetched _ _ _ => true
  | _ => false

/-- Event classifier: `phase_complete` notifications. -/
def isPhaseComplete : WorkerEvent → Bool
  | .phaseComplete _ _ _ _ => true
  | _ => false

/-- Event classifier: `execution_complete` notifications. -/
def isExecutionComplete : WorkerEvent → Bool
  | .executionComplete _ _ _ _ _ => true
  | _ => false

/-- The ghost invariant tying the observation flag to the schedule: a
positive read can only have happened if the abort flag is set by the
current tick. -/
def ObsOk (sched : Option Nat) (s : RunState) : Prop :=
  s.abortObserved = true → abortNow sched s.tick = true

/- ### Theorems for the claims -/

/-- C1 counterexample: with an execution already running (the dispatcher
holds a running executor), a second `execute` request is answered with a
success response (`error = none`, so in particular not `EXECUTION_ERROR
-32001`) and a new execution is started. -/
theorem C1_counterexample :
    (handleExecute { executor := some { ConnectorExecutorState.init with
        executionId := some "busy", state := .running } }
      (JValue.num 2) { connector := some "C" }).response.error = none
  ∧ (handleExecute { executor := some { ConnectorExecutorState.init with
        executionId := some "busy", state := .running } }
      (JValue.num 2) { connector := some "C" }).startedNewExecution = true :=
  ⟨rfl, rfl⟩

/-- C1 (amended): `_handle_execute` performs no busy check.  For every
dispatcher state — including one whose executor is still running — an
`execute` request with a truthy `connector` parameter replaces the executor
handle with a fresh pending executor, starts a new background execution,
and returns a success response `{execution_id: null, status: "started"}`
(the id is still null because the background task has not yet run). -/
theorem C1_execute_always_starts (s : WorkerState) (rid : JValue) (name : String)
    (h : name ≠ "") :
    handleExecute s rid { connector := some name } =
      { state := { s with executor := some ConnectorExecutorState.init }
        response := JsonRpcResponse.success (some rid)
          (JValue.dict [("execution_id", JValue.null), ("status", JValue.str "started")])
        startedNewExecution := true } := by
  simp [handleExecute, connectorNameFalsy, h]

/-- C1 witness: the amended theorem applied to a dispatcher whose executor
is running. -/
theorem C1_execute_always_starts_witness :
    handleExecute { executor := some { ConnectorExecutorState.init with
        executionId := some "busy", state := .running } }
      (JValue.num 2) { connector := some "C" } =
      { state := { executor := some ConnectorExecutorState.init }
        response := JsonRpcResponse.success (some (JValue.num 2))
          (JValue.dict [("execution_id", JValue.null), ("status", JValue.str "started")])
        startedNewExecution := true } :=
  C1_execute_always_starts _ _ "C" (by decide)

/-- C4 counterexample: `pause` applied to an executor in the terminal state
`completed` moves the state to `paused` (it is not ignored), and the
dispatcher answers the pause request with a success response rather than
`EXECUTION_ERROR`. -/
theorem C4_counterexample :
    ({ ConnectorExecutorState.init with state := .completed }.pause).state =
      ExecutionState.paused
  ∧ (handlePause { executor := some { ConnectorExecutorState.init with
        state := .completed } } (JValue.num 3)).2.error = none :=
  ⟨rfl, rfl⟩

/-- C4 (amended): `ConnectorExecutor.pause` is unguarded — from any state,
terminal ones included, it clears the pause latch and sets the state to
`paused`; the dispatcher surfaces `EXECUTION_ERROR` only when no executor
handle exists at all, and otherwise applies the pause and answers
success. -/
theorem C4_pause_unguarded :
    (∀ c : ConnectorExecutorState,
      c.pause = { c with pauseEventSet := false, state := .paused })
  ∧ (∀ s rid, s.executor = none →
      handlePause s rid = (s, JsonRpcResponse.mkError (some rid)
        ErrorCode.EXECUTION_ERROR "No execution in progress"))
  ∧ (∀ s rid ex, s.executor = some ex →
      handlePause s rid = ({ s with executor := some ex.pause },
        JsonRpcResponse.success (some rid)
          (JValue.dict [("status", JValue.str "paused")]))) := by
  refine ⟨fun c => rfl, fun s rid h => ?_, fun s rid ex h => ?_⟩
  · simp [handlePause, h]
  · simp [handlePause, h]

/-- C4 witness: the amended theorem applied at a missing handle and at a
completed executor. -/
theorem C4_pause_unguarded_witness :
    handlePause { executor := none } (JValue.num 1) =
      ({ executor := none }, JsonRpcResponse.mkError (some (JValue.num 1))
        ErrorCode.EXECUTION_ERROR "No execution in progress")
  ∧ handlePause { executor := some { ConnectorExecutorState.init with
        state := .completed } } (JValue.num 3) =
      ({ executor := some { ConnectorExecutorState.init with
          state := .paused, pauseEventSet := false } },
        JsonRpcResponse.success (some (JValue.num 3))
          (JValue.dict [("status", JValue.str "paused")])) :=
  ⟨C4_pause_unguarded.2.1 _ _ rfl,
    C4_pause_unguarded.2.2 _ _ { ConnectorExecutorState.init with state := .completed } rfl⟩

/-- C8 counterexample: a line parsing to the JSON object `{"id": 5}`
(missing `method`) is answered with an `INVALID_REQUEST` response whose
`id` is `5`, not null. -/
theorem C8_counterexample :
    loopStep (.jsonObjectLine [("id", JValue.num 5)]) =
      .continueLoop (some (JsonRpcResponse.mkError (some (JValue.num 5))
        ErrorCode.INVALID_REQUEST "Missing \x27method\x27 or \x27id\x27"))
  ∧ (some (JValue.num 5) : Option JValue) ≠ none :=
  ⟨rfl, by decide⟩

/-- C8 (amended): a line that is not valid JSON is answered with
`PARSE_ERROR` (-32700) and `id = null`, and the loop continues; a JSON
object missing `method` or `id` is answered with `INVALID_REQUEST` (-32600)
whose response id is `data.get("id")` — the request's `id` field when
present, null otherwise — and the loop continues. -/
theorem C8_framing (fields : PyDict)
    (h : hasKey fields "method" = false ∨ hasKey fields "id" = false) :
    loopStep (.jsonObjectLine fields) =
      .continueLoop (some (JsonRpcResponse.mkError (lookupField fields "id")
        ErrorCode.INVALID_REQUEST "Missing \x27method\x27 or \x27id\x27"))
  ∧ loopStep .malformedLine =
      .continueLoop (some (JsonRpcResponse.mkError none
        ErrorCode.PARSE_ERROR "Invalid JSON")) := by
  have hcond : (hasKey fields "method" && hasKey fields "id") = false := by
    rcases h with h | h <;> simp [h]
  exact ⟨by simp [loopStep, hcond], rfl⟩

/-- C8 witness: the amended theorem applied to the object `{"id": 5}`. -/
theorem C8_framing_witness :
    loopStep (.jsonObjectLine [("id", JValue.num 5)]) =
      .continueLoop (some (JsonRpcResponse.mkError (some (JValue.num 5))
        ErrorCode.INVALID_REQUEST "Missing \x27method\x27 or \x27id\x27")) :=
  (C8_framing [("id", JValue.num 5)] (Or.inl (by decide))).1

theorem firstSome_eq_none_iff :
    ∀ l : List (Option String), (firstSome l = none ↔ ∀ o ∈ l, o = none)
  | [] => by simp [firstSome]
  | some v :: rest => by simp [firstSome]
  | none :: rest => by simp [firstSome, firstSome_eq_none_iff rest]

/-- A class whose constructor has one parameter carrying a default value:
calling it with no arguments succeeds, calling it with any keyword map
raises (the parameter rejects explicit `None`). -/
def defaultedCtorClass : PyCallable :=
  { params := ["x"]
    call := fun kwargs => if kwargs = [] then some "made_with_defaults" else none }

/-- C7 counterexample: for a class whose single constructor parameter
carries a default, the no-args call would succeed, yet
`_try_instantiate_data_client` returns a null instance — strategy 1 is not
attempted for such a class, so the first non-raising strategy does not
win. -/
theorem C7_counterexample :
    defaultedCtorClass.call [] = some "made_with_defaults"
  ∧ tryInstantiateDataClient [] defaultedCtorClass = none :=
  ⟨rfl, rfl⟩

/-- C7 (amended): the instantiate step equals trying, in order, exactly the
keyword maps of `attemptedKwargMaps` — the no-args call only when the
parameter list (excluding `self`) is empty, the environment-derived keyword
map only when it is non-empty, and the all-`None` map always — returning
the first call that does not raise, and a null instance (never an
exception) when every attempted call raises. -/
theorem C7_instantiate_order (env : List (String × String)) (cls : PyCallable) :
    tryInstantiateDataClient env cls =
      firstSome ((attemptedKwargMaps env cls).map cls.call)
  ∧ (tryInstantiateDataClient env cls = none ↔
      ∀ km ∈ attemptedKwargMaps env cls, cls.call km = none) := by
  have hmain : tryInstantiateDataClient env cls =
      firstSome ((attemptedKwargMaps env cls).map cls.call) := by
    obtain ⟨params, call⟩ := cls
    by_cases hp : params = []
    · subst hp
      cases h : call [] <;>
        simp [tryInstantiateDataClient, attemptedKwargMaps, buildKwargs, firstSome, h]
    · by_cases hk : buildKwargs env params = []
      · cases h : call (params.map fun p => (p, none)) <;>
          simp [tryInstantiateDataClient, attemptedKwargMaps, firstSome, hp, hk, h]
      · cases h2 : call (buildKwargs env params) <;>
          cases h3 : call (params.map fun p => (p, none)) <;>
            simp [tryInstantiateDataClient, attemptedKwargMaps, firstSome, hp, hk, h2, h3]
  refine ⟨hmain, ?_⟩
  rw [hmain, firstSome_eq_none_iff]
  simp

/-- C9: every emitted field mapping pairs an input key with a top-level
output key or a `metadata.<key>` target whose values are equal and
non-null; consequently, for any record none of whose input values equals
any output value (top-level or nested under a dict-valued `metadata`), the
emitted `field_mappings` list is empty. -/
theorem C9_field_mapping_detection :
    (∀ (inputData outputData : PyDict) (fm : FieldMapping),
      fm ∈ detectFieldMappings inputData outputData →
      ∃ iv, (fm.source_field, iv) ∈ inputData ∧ iv ≠ JValue.null ∧
        ((fm.target_field, iv) ∈ outputData ∨
          ∃ metaKey ov, fm.target_field = "metadata." ++ metaKey ∧
            ("metadata", ov) ∈ outputData ∧ ov.isDict = true ∧
            (metaKey, iv) ∈ ov.dictFields))
  ∧ (∀ (inputData outputData : PyDict),
      (∀ ie ∈ inputData, ∀ oe ∈ outputData,
        ie.2 ≠ oe.2 ∧ ∀ me ∈ oe.2.dictFields, ie.2 ≠ me.2) →
      detectFieldMappings inputData outputData = []) := by
  have hsound : ∀ (inputData outputData : PyDict) (fm : FieldMapping),
      fm ∈ detectFieldMappings inputData outputData →
      ∃ iv, (fm.source_field, iv) ∈ inputData ∧ iv ≠ JValue.null ∧
        ((fm.target_field, iv) ∈ outputData ∨
          ∃ metaKey ov, fm.target_field = "metadata." ++ metaKey ∧
            ("metadata", ov) ∈ outputData ∧ ov.isDict = true ∧
            (metaKey, iv) ∈ ov.dictFields) := by
    intro inputData outputData fm hmem
    simp only [detectFieldMappings, List.mem_flatMap] at hmem
    obtain ⟨outEntry, houtMem, hfm⟩ := hmem
    by_cases hcase : outEntry.1 = "metadata" ∧ outEntry.2.isDict = true
    · rw [if_pos hcase] at hfm
      simp only [List.mem_flatMap, List.mem_filterMap] at hfm
      obtain ⟨metaEntry, hmetaMem, inEntry, hinMem, hcond⟩ := hfm
      by_cases hc : inEntry.2 = metaEntry.2 ∧ inEntry.2 ≠ JValue.null
      · rw [if_pos hc] at hcond
        cases hcond
        refine ⟨inEntry.2, ?_, hc.2,
          Or.inr ⟨metaEntry.1, outEntry.2, rfl, ?_, hcase.2, ?_⟩⟩
        · simpa using hinMem
        · have : (("metadata" : String), outEntry.2) = outEntry := by
            rw [← hcase.1]
          simpa [this] using houtMem
        · have : ((metaEntry.1, inEntry.2) : String × JValue) = metaEntry := by
            rw [hc.1]
          simpa [this] using hmetaMem
      · rw [if_neg hc] at hcond
        exact absurd hcond (by simp)
    · rw [if_neg hcase] at hfm
      simp only [List.mem_filterMap] at hfm
      obtain ⟨inEntry, hinMem, hcond⟩ := hfm
      by_cases hc : inEntry.2 = outEntry.2 ∧ inEntry.2 ≠ JValue.null
      · rw [if_pos hc] at hcond
        cases hcond
        refine ⟨inEntry.2, ?_, hc.2, Or.inl ?_⟩
        · simpa using hinMem
        · have : ((outEntry.1, inEntry.2) : String × JValue) = outEntry := by
            rw [hc.1]
          simpa [this] using houtMem
      · rw [if_neg hc] at hcond
        exact absurd hcond (by simp)
  refine ⟨hsound, ?_⟩
  intro inputData outputData hno
  by_contra hne
  obtain ⟨fm, hfm⟩ := List.exists_mem_of_ne_nil _ hne
  obtain ⟨iv, hin, hnn, hcase⟩ := hsound _ _ fm hfm
  rcases hcase with htop | ⟨mk, ov, htf, hovMem, hdict, hmv⟩
  · exact absurd rfl (hno _ hin _ htop).1
  · exact absurd rfl ((hno _ hin _ hovMem).2 (mk, iv) hmv)

/-- C9 witness: at the input `{"source_title": "Hello"}` and output
`{"title": "Hello"}` the single detected mapping satisfies the pairing
property, and a value-disjoint input/output pair yields no mappings. -/
theorem C9_field_mapping_detection_witness :
    (∃ iv, (("source_title", iv) ∈ ([("source_title", JValue.str "Hello")] : PyDict))
      ∧ iv ≠ JValue.null ∧
      ((("title", iv) ∈ ([("title", JValue.str "Hello")] : PyDict)) ∨
        ∃ metaKey ov, ("title" : String) = "metadata." ++ metaKey ∧
          ("metadata", ov) ∈ ([("title", JValue.str "Hello")] : PyDict) ∧
          ov.isDict = true ∧ (metaKey, iv) ∈ ov.dictFields))
  ∧ detectFieldMappings [("a", JValue.str "x")] [("b", JValue.str "y")] = [] :=
  ⟨C9_field_mapping_detection.1 [("source_title", JValue.str "Hello")]
      [("title", JValue.str "Hello")] ⟨"source_title", "title"⟩ (by decide),
    C9_field_mapping_detection.2 [("a", JValue.str "x")] [("b", JValue.str "y")]
      (by decide)⟩

theorem fetchLoop_trace (sched : Option Nat) (stepMode : Bool) :
    ∀ (mock : List PyDict) (index : Nat) (s : RunState),
      ∃ tr, (fetchLoop sched stepMode mock index s).events = s.events ++ tr ∧
        (∀ e ∈ tr, isRecordFetched e = true) ∧ tr.length ≤ mock.length := by
  intro mock
  induction mock with
  | nil => exact fun index s => ⟨[], by simp [fetchLoop], by simp, by simp⟩
  | cons record rest ih =>
      intro index s
      simp only [fetchLoop, checkAbort]
      by_cases h : abortNow sched (passTick s).tick = true
      · simp only [h, if_pos rfl]
        exact ⟨[], by simp [passTick], by simp, by simp⟩
      · rw [Bool.not_eq_true] at h
        simp only [h, Bool.false_eq_true, if_false]
        obtain ⟨tr, htr, hall, hlen⟩ := ih (index + 1)
          (stepPause stepMode (emitEvent (passTick s)
            (.recordFetched (recordIdFor record index) index record)))
        refine ⟨.recordFetched (recordIdFor record index) index record :: tr, ?_, ?_, ?_⟩
        · rw [htr]
          cases stepMode <;> simp [stepPause, emitEvent, passTick]
        · intro e he
          rcases List.mem_cons.mp he with rfl | he2
          · rfl
          · exact hall e he2
        · simpa using Nat.succ_le_succ hlen

/-- C10: in mock-data mode the fetch phase's `phase_complete` always
reports `records_processed = len(mock_data)` — the full count of loaded
mock records — under every abort schedule, even though the number of
`record_fetched` events is only bounded by that count; concretely, with an
abort already requested at tick 0 a one-record mock run emits zero
`record_fetched` events while its `phase_complete` still reports 1. -/
theorem C10_fetch_phase_complete_total (sched : Option Nat) (stepMode : Bool)
    (mockData : List PyDict) (s : RunState) :
    (∃ tr, (runFetchPhase sched stepMode mockData s).events =
        s.events ++ [WorkerEvent.phaseStart "get_data" (some mockData.length)] ++ tr
          ++ [WorkerEvent.phaseComplete "get_data" mockData.length true none] ∧
        (∀ e ∈ tr, isRecordFetched e = true) ∧ tr.length ≤ mockData.length)
  ∧ ((runFetchPhase (some 0) false [[("id", JValue.num 1)]]
        initialRunState).events.filter isRecordFetched).length = 0
  ∧ (runFetchPhase (some 0) false [[("id", JValue.num 1)]]
        initialRunState).events.filter isPhaseComplete =
      [WorkerEvent.phaseComplete "get_data" 1 true none] := by
  refine ⟨?_, by decide, by decide⟩
  obtain ⟨tr, htr, hall, hlen⟩ := fetchLoop_trace sched stepMode mockData 0
    (emitEvent s (.phaseStart "get_data" (some mockData.length)))
  refine ⟨tr, ?_, hall, hlen⟩
  simp only [runFetchPhase, emitEvent] at htr ⊢
  rw [htr]

theorem abortNow_mono (sched : Option Nat) (t1 t2 : Nat) (hle : t1 ≤ t2)
    (h : abortNow sched t1 = true) : abortNow sched t2 = true := by
  cases sched with
  | none => simp [abortNow] at h
  | some a =>
      simp only [abortNow, decide_eq_true_eq] at h ⊢
      omega

theorem ObsOk_initial (sched : Option Nat) : ObsOk sched initialRunState := by
  intro h
  simp [initialRunState] at h

theorem ObsOk_passTick {sched : Option Nat} {s : RunState} (h : ObsOk sched s) :
    ObsOk sched (passTick s) := by
  intro hobs
  simp only [passTick] at hobs ⊢
  exact abortNow_mono sched s.tick (s.tick + 1) (Nat.le_succ _) (h hobs)

theorem ObsOk_emitEvent {sched : Option Nat} {s : RunState} {e : WorkerEvent}
    (h : ObsOk sched s) : ObsOk sched (emitEvent s e) := by
  intro hobs
  simp only [emitEvent] at hobs ⊢
  exact h hobs

theorem ObsOk_stepPause {sched : Option Nat} {m : Bool} {s : RunState}
    (h : ObsOk sched s) : ObsOk sched (stepPause m s) := by
  cases m with
  | false => simpa [stepPause] using h
  | true => simpa [stepPause] using ObsOk_passTick h

theorem filterEC_emitEvent (s : RunState) (e : WorkerEvent)
    (he : isExecutionComplete e = false) :
    (emitEvent s e).events.filter isExecutionComplete =
      s.events.filter isExecutionComplete := by
  simp [emitEvent, List.filter_append, he]

theorem fetchLoop_inv (sched : Option Nat) (stepMode : Bool) :
    ∀ (mock : List PyDict) (index : Nat) (s : RunState),
      ((fetchLoop sched stepMode mock index s).events.filter isExecutionComplete
        = s.events.filter isExecutionComplete)
      ∧ (fetchLoop sched stepMode mock index s).state = s.state
      ∧ (ObsOk sched s → ObsOk sched (fetchLoop sched stepMode mock index s)) := by
  intro mock
  induction mock with
  | nil =>
      intro index s
      exact ⟨by simp [fetchLoop], by simp [fetchLoop], fun h => by simpa [fetchLoop] using h⟩
  | cons record rest ih =>
      intro index s
      simp only [fetchLoop, checkAbort]
      by_cases hf : abortNow sched (passTick s).tick = true
      · simp only [hf, if_pos rfl, if_true]
        refine ⟨by simp [passTick], by simp [passTick], fun h => ?_⟩
        intro hobs
        simpa [passTick] using hf
      · rw [Bool.not_eq_true] at hf
        simp only [hf, Bool.false_eq_true, if_false]
        obtain ⟨h1, h2, h3⟩ := ih (index + 1)
          (stepPause stepMode (emitEvent (passTick s)
            (.recordFetched (recordIdFor record index) index record)))
        refine ⟨h1.trans ?_, h2.trans ?_, fun h => h3 ?_⟩
        · cases stepMode <;>
            simp [stepPause, emitEvent, passTick, List.filter_append, isExecutionComplete]
        · cases stepMode <;> simp [stepPause, emitEvent, passTick]
        · exact ObsOk_stepPause (ObsOk_emitEvent (ObsOk_passTick h))

theorem realFetchLoop_inv (sched : Option Nat) (stepMode : Bool) :
    ∀ (stream : List PyDict) (index : Nat) (acc : List PyDict) (s : RunState),
      ((realFetchLoop sched stepMode stream index acc s).2.2.events.filter
          isExecutionComplete = s.events.filter isExecutionComplete)
      ∧ (realFetchLoop sched stepMode stream index acc s).2.2.state = s.state
      ∧ (ObsOk sched s →
          ObsOk sched (realFetchLoop sched stepMode stream index acc s).2.2) := by
  intro stream
  induction stream with
  | nil =>
      intro index acc s
      exact ⟨by simp [realFetchLoop], by simp [realFetchLoop],
        fun h => by simpa [realFetchLoop] using h⟩
  | cons record rest ih =>
      intro index acc s
      simp only [realFetchLoop, checkAbort]
      by_cases hf : abortNow sched (passTick s).tick = true
      · simp only [hf, if_pos rfl, if_true]
        refine ⟨by simp [passTick], by simp [passTick], fun h => ?_⟩
        intro hobs
        simpa [passTick] using hf
      · rw [Bool.not_eq_true] at hf
        simp only [hf, Bool.false_eq_true, if_false]
        obtain ⟨h1, h2, h3⟩ := ih (index + 1) (acc ++ [record])
          (stepPause stepMode (emitEvent (passTick s)
            (.recordFetched (recordIdFor record index) index record)))
        refine ⟨h1.trans ?_, h2.trans ?_, fun h => h3 ?_⟩
        · cases stepMode <;>
            simp [stepPause, emitEvent, passTick, List.filter_append, isExecutionComplete]
        · cases stepMode <;> simp [stepPause, emitEvent, passTick]
        · exact ObsOk_stepPause (ObsOk_emitEvent (ObsOk_passTick h))

theorem transformLoop_inv (sched : Option Nat) (stepMode : Bool) (env : TransformEnv) :
    ∀ (records : List PyDict) (index : Nat) (s : RunState),
      ((transformLoop sched stepMode env records index s).events.filter
          isExecutionComplete = s.events.filter isExecutionComplete)
      ∧ (transformLoop sched stepMode env records index s).state = s.state
      ∧ (ObsOk sched s →
          ObsOk sched (transformLoop sched stepMode env records index s)) := by
  intro records
  induction records with
  | nil =>
      intro index s
      exact ⟨by simp [transformLoop], by simp [transformLoop],
        fun h => by simpa [transformLoop] using h⟩
  | cons record rest ih =>
      intro index s
      simp only [transformLoop, checkAbort]
      by_cases hf : abortNow sched (passTick s).tick = true
      · simp only [hf, if_pos rfl, if_true]
        refine ⟨by simp [passTick], by simp [passTick], fun h => ?_⟩
        intro hobs
        simpa [passTick] using hf
      · rw [Bool.not_eq_true] at hf
        simp only [hf, Bool.false_eq_true, if_false]
        cases houtcome : transformOutcome env index record with
        | ok outputData =>
            obtain ⟨h1, h2, h3⟩ := ih (index + 1)
              (stepPause stepMode
                { emitEvent (passTick s)
                    (.transformComplete (recordIdFor record index) index record
                      outputData (detectFieldMappings record outputData)) with
                  successfulRecords := (passTick s).successfulRecords + 1 })
            refine ⟨h1.trans ?_, h2.trans ?_, fun h => h3 ?_⟩
            · cases stepMode <;>
                simp [stepPause, emitEvent, passTick, List.filter_append,
                  isExecutionComplete]
            · cases stepMode <;> simp [stepPause, emitEvent, passTick]
            · exact ObsOk_stepPause (fun hobs => ObsOk_passTick h hobs)
        | error e =>
            obtain ⟨m, t⟩ := e
            obtain ⟨h1, h2, h3⟩ := ih (index + 1)
              (stepPause stepMode
                (emitEvent { passTick s with
                    failedRecords := (passTick s).failedRecords + 1 }
                  (.transformError (recordIdFor record index) index record m t)))
            refine ⟨h1.trans ?_, h2.trans ?_, fun h => h3 ?_⟩
            · cases stepMode <;>
                simp [stepPause, emitEvent, passTick, List.filter_append,
                  isExecutionComplete]
            · cases stepMode <;> simp [stepPause, emitEvent, passTick]
            · refine ObsOk_stepPause (ObsOk_emitEvent ?_)
              intro hobs
              exact (ObsOk_passTick h) hobs


theorem runFetchPhase_inv (sched : Option Nat) (stepMode : Bool)
    (mock : List PyDict) (s : RunState) :
    ((runFetchPhase sched stepMode mock s).events.filter isExecutionComplete
      = s.events.filter isExecutionComplete)
    ∧ (runFetchPhase sched stepMode mock s).state = s.state
    ∧ (ObsOk sched s → ObsOk sched (runFetchPhase sched stepMode mock s)) := by
  obtain ⟨h1, h2, h3⟩ := fetchLoop_inv sched stepMode mock 0
    (emitEvent s (.phaseStart "get_data" (some mock.length)))
  refine ⟨?_, h2, fun h => h3 h⟩
  show List.filter isExecutionComplete
      ((fetchLoop sched stepMode mock 0
          (emitEvent s (.phaseStart "get_data" (some mock.length)))).events
        ++ [WorkerEvent.phaseComplete "get_data" mock.length true none])
    = List.filter isExecutionComplete s.events
  rw [List.filter_append, h1]
  show List.filter isExecutionComplete
        (s.events ++ [WorkerEvent.phaseStart "get_data" (some mock.length)])
      ++ List.filter isExecutionComplete
        [WorkerEvent.phaseComplete "get_data" mock.length true none]
    = List.filter isExecutionComplete s.events
  rw [List.filter_append]
  simp [isExecutionComplete]

theorem runTransformPhase_inv (sched : Option Nat) (stepMode : Bool)
    (env : TransformEnv) (records : List PyDict) (s : RunState) :
    ((runTransformPhase sched stepMode env records s).events.filter
        isExecutionComplete = s.events.filter isExecutionComplete)
    ∧ (runTransformPhase sched stepMode env records s).state = s.state
    ∧ (ObsOk sched s → ObsOk sched (runTransformPhase sched stepMode env records s)) := by
  obtain ⟨h1, h2, h3⟩ := transformLoop_inv sched stepMode env records 0
    (emitEvent s (.phaseStart "transform" (some records.length)))
  refine ⟨?_, h2, fun h => h3 h⟩
  show List.filter isExecutionComplete
      ((transformLoop sched stepMode env records 0
          (emitEvent s (.phaseStart "transform" (some records.length)))).events
        ++ [WorkerEvent.phaseComplete "transform"
            ((transformLoop sched stepMode env records 0
              (emitEvent s (.phaseStart "transform" (some records.length)))).successfulRecords
            + (transformLoop sched stepMode env records 0
              (emitEvent s (.phaseStart "transform" (some records.length)))).failedRecords)
            (decide ((transformLoop sched stepMode env records 0
              (emitEvent s (.phaseStart "transform" (some records.length)))).failedRecords = 0))
            none])
    = List.filter isExecutionComplete s.events
  rw [List.filter_append, h1]
  show List.filter isExecutionComplete
        (s.events ++ [WorkerEvent.phaseStart "transform" (some records.length)])
      ++ _
    = List.filter isExecutionComplete s.events
  rw [List.filter_append]
  simp [isExecutionComplete]

theorem runUploadPhase_facts (s : RunState) :
    ((runUploadPhase s).events.filter isExecutionComplete
      = s.events.filter isExecutionComplete)
    ∧ (runUploadPhase s).state = s.state
    ∧ (runUploadPhase s).abortObserved = s.abortObserved := by
  refine ⟨?_, rfl, rfl⟩
  show List.filter isExecutionComplete
      ((s.events ++ [WorkerEvent.phaseStart "post_to_index" (some s.successfulRecords)])
        ++ [WorkerEvent.phaseComplete "post_to_index" s.successfulRecords true none])
    = List.filter isExecutionComplete s.events
  rw [List.filter_append, List.filter_append]
  simp [isExecutionComplete]

theorem runRealFetchPhase_inv (sched : Option Nat) (stepMode : Bool)
    (env : RealFetchEnv) (s : RunState) :
    ((runRealFetchPhase sched stepMode env s).2.events.filter isExecutionComplete
      = s.events.filter isExecutionComplete)
    ∧ (runRealFetchPhase sched stepMode env s).2.state = s.state
    ∧ (ObsOk sched s → ObsOk sched (runRealFetchPhase sched stepMode env s).2) := by
  obtain ⟨dc, gs, stream, sr⟩ := env
  cases dc with
  | false =>
      refine ⟨?_, rfl, fun h => h⟩
      show List.filter isExecutionComplete
          ((s.events ++ [WorkerEvent.phaseStart "get_data" none])
            ++ [WorkerEvent.phaseComplete "get_data" 0 false (some "No data client found")])
        = List.filter isExecutionComplete s.events
      rw [List.filter_append, List.filter_append]
      simp [isExecutionComplete]
  | true =>
      cases gs with
      | false =>
          refine ⟨?_, rfl, fun h => h⟩
          show List.filter isExecutionComplete
              ((s.events ++ [WorkerEvent.phaseStart "get_data" none])
                ++ [WorkerEvent.phaseComplete "get_data"
                      (List.length ([] : List PyDict))
                      (decide (0 < List.length ([] : List PyDict))) none])
            = List.filter isExecutionComplete s.events
          rw [List.filter_append, List.filter_append]
          simp [isExecutionComplete]
      | true =>
          rcases hloop : realFetchLoop sched stepMode stream 0 []
              (emitEvent s (.phaseStart "get_data" none)) with ⟨fetched, broke, sL⟩
          have h := realFetchLoop_inv sched stepMode stream 0 []
            (emitEvent s (.phaseStart "get_data" none))
          rw [hloop] at h
          have h1 : List.filter isExecutionComplete sL.events =
              List.filter isExecutionComplete
                (s.events ++ [WorkerEvent.phaseStart "get_data" none]) := h.1
          have hred : runRealFetchPhase sched stepMode ⟨true, true, stream, sr⟩ s =
              (fetched,
                emitEvent
                  (if broke = true ∨ ¬ sr = true then
                    { sL with totalRecords := fetched.length } else sL)
                  (.phaseComplete "get_data" fetched.length
                    (decide (0 < fetched.length)) none)) := by
            unfold runRealFetchPhase
            dsimp only
            rw [hloop]
            simp
          rw [hred]
          by_cases hbr : broke = true ∨ ¬ sr = true
          · rw [if_pos hbr]
            refine ⟨?_, h.2.1, fun ho => fun hobs => h.2.2 ho hobs⟩
            show List.filter isExecutionComplete
                (sL.events ++ [WorkerEvent.phaseComplete "get_data" fetched.length
                  (decide (0 < fetched.length)) none])
              = List.filter isExecutionComplete s.events
            rw [List.filter_append, h1, List.filter_append]
            simp [isExecutionComplete]
          · rw [if_neg hbr]
            refine ⟨?_, h.2.1, fun ho => fun hobs => h.2.2 ho hobs⟩
            show List.filter isExecutionComplete
                (sL.events ++ [WorkerEvent.phaseComplete "get_data" fetched.length
                  (decide (0 < fetched.length)) none])
              = List.filter isExecutionComplete s.events
            rw [List.filter_append, h1, List.filter_append]
            simp [isExecutionComplete]

theorem afterFetch_facts (sched : Option Nat) (env : ExecEnv) (stepMode : Bool)
    (fetched : List PyDict) (s : RunState) (hobs : ObsOk sched s) :
    (afterFetch sched env stepMode fetched s).2 = .normal
    ∧ ((afterFetch sched env stepMode fetched s).1.events.filter isExecutionComplete
        = s.events.filter isExecutionComplete)
    ∧ ((afterFetch sched env stepMode fetched s).1.state = .completed →
        (afterFetch sched env stepMode fetched s).1.abortObserved = false)
    ∧ ((afterFetch sched env stepMode fetched s).1.state = .aborted ↔
        (afterFetch sched env stepMode fetched s).1.abortObserved = true)
    ∧ ((afterFetch sched env stepMode fetched s).1.state = .completed
        ∨ (afterFetch sched env stepMode fetched s).1.state = .aborted) := by
  by_cases hf : abortNow sched s.tick = true
  · have hred : afterFetch sched env stepMode fetched s =
        ({ { s with abortObserved := true } with state := .aborted }, .normal) := by
      unfold afterFetch
      simp [checkAbort, hf]
    rw [hred]
    exact ⟨rfl, rfl, by simp, by simp, Or.inr rfl⟩
  · have hfr : abortNow sched s.tick = false := by
      rw [← Bool.not_eq_true]
      exact hf
    by_cases hf2 : abortNow sched
        (runTransformPhase sched stepMode env.transform fetched s).tick = true
    · have hred : afterFetch sched env stepMode fetched s =
          ({ { runTransformPhase sched stepMode env.transform fetched s with
              abortObserved := true } with state := .aborted }, .normal) := by
        unfold afterFetch
        simp [checkAbort, hfr, hf2]
      rw [hred]
      refine ⟨rfl, ?_, by simp, by simp, Or.inr rfl⟩
      exact (runTransformPhase_inv sched stepMode env.transform fetched s).1
    · have hf2r : abortNow sched
          (runTransformPhase sched stepMode env.transform fetched s).tick = false := by
        rw [← Bool.not_eq_true]
        exact hf2
      have hred : afterFetch sched env stepMode fetched s =
          ({ runUploadPhase (runTransformPhase sched stepMode env.transform fetched s)
              with state := .completed }, .normal) := by
        unfold afterFetch
        simp [checkAbort, hfr, hf2r]
      have hobsF : (runTransformPhase sched stepMode env.transform fetched s).abortObserved
          = false := by
        by_contra hcon
        rw [Bool.not_eq_false] at hcon
        have := (runTransformPhase_inv sched stepMode env.transform fetched s).2.2 hobs hcon
        rw [this] at hf2
        exact hf2 rfl
      rw [hred]
      refine ⟨rfl, ?_, fun _ => ?_, ?_, Or.inl rfl⟩
      · exact ((runUploadPhase_facts
            (runTransformPhase sched stepMode env.transform fetched s)).1).trans
          (runTransformPhase_inv sched stepMode env.transform fetched s).1
      · exact hobsF
      · constructor
        · intro hst
          exact absurd hst (by simp)
        · intro hob
          have hx : (runTransformPhase sched stepMode env.transform fetched s).abortObserved
              = true := hob
          rw [hobsF] at hx
          exact absurd hx (by simp)

theorem executeBody_facts (sched : Option Nat) (env : ExecEnv) (connectorName : String)
    (stepMode : Bool) :
    ((executeBody sched env connectorName stepMode).1.events.filter isExecutionComplete = [])
    ∧ ((executeBody sched env connectorName stepMode).1.state = .completed →
        (executeBody sched env connectorName stepMode).2 = .normal
        ∧ (executeBody sched env connectorName stepMode).1.abortObserved = false)
    ∧ ((executeBody sched env connectorName stepMode).2 = .normal →
        ((executeBody sched env connectorName stepMode).1.state = .aborted ↔
          (executeBody sched env connectorName stepMode).1.abortObserved = true))
    ∧ ((executeBody sched env connectorName stepMode).2 = .normal →
        (executeBody sched env connectorName stepMode).1.state = .completed
        ∨ (executeBody sched env connectorName stepMode).1.state = .aborted) := by
  by_cases hc : env.discoveredNames.contains connectorName = true
  · have hmem : connectorName ∈ env.discoveredNames := by simpa using hc
    cases hload : env.loadError with
    | some e =>
        obtain ⟨m, t⟩ := e
        have hred : executeBody sched env connectorName stepMode =
            ({ initialRunState with state := .error }, .raised m t) := by
          unfold executeBody
          simp [hmem, hload]
        rw [hred]
        exact ⟨rfl, by simp, by simp, by simp⟩
    | none =>
        by_cases hmock : env.mockData = []
        · rcases hrf : runRealFetchPhase sched stepMode env.realFetch initialRunState
            with ⟨f0, s0⟩
          have hr := runRealFetchPhase_inv sched stepMode env.realFetch initialRunState
          rw [hrf] at hr
          have hred : executeBody sched env connectorName stepMode =
              afterFetch sched env stepMode f0 s0 := by
            unfold executeBody
            simp [hmem, hload, hmock, hrf]
          have hobs0 : ObsOk sched s0 := hr.2.2 (ObsOk_initial sched)
          obtain ⟨a1, a2, a3, a4, a5⟩ := afterFetch_facts sched env stepMode f0 s0 hobs0
          rw [hred]
          refine ⟨?_, fun hcomp => ⟨a1, a3 hcomp⟩, fun _ => a4, fun _ => a5⟩
          rw [a2]
          have hs0 : List.filter isExecutionComplete s0.events =
              List.filter isExecutionComplete initialRunState.events := hr.1
          rw [hs0]
          rfl
        · have hred : executeBody sched env connectorName stepMode =
              afterFetch sched env stepMode env.mockData
                (runFetchPhase sched stepMode env.mockData
                  { initialRunState with totalRecords := env.mockData.length }) := by
            unfold executeBody
            simp [hmem, hload, hmock]
          have hfp := runFetchPhase_inv sched stepMode env.mockData
            { initialRunState with totalRecords := env.mockData.length }
          have hobs1 : ObsOk sched (runFetchPhase sched stepMode env.mockData
              { initialRunState with totalRecords := env.mockData.length }) :=
            hfp.2.2 (fun ho => (ObsOk_initial sched) ho)
          obtain ⟨a1, a2, a3, a4, a5⟩ :=
            afterFetch_facts sched env stepMode env.mockData _ hobs1
          rw [hred]
          refine ⟨?_, fun hcomp => ⟨a1, a3 hcomp⟩, fun _ => a4, fun _ => a5⟩
          rw [a2, hfp.1]
          rfl
  · have hnotmem : connectorName ∉ env.discoveredNames := by simpa using hc
    have hred : executeBody sched env connectorName stepMode =
        ({ initialRunState with state := .error },
          .raised s!"Connector \x27{connectorName}\x27 not found in project" "ValueError") := by
      unfold executeBody
      simp [hnotmem]
    rw [hred]
    exact ⟨rfl, by simp, by simp, by simp⟩

/-- C2: for every abort schedule, environment, connector name, step mode
and execution id — covering normal completion, an escaping exception
(connector not found or class-load failure) and every abort interleaving —
`execute` emits exactly one `execution_complete`, carrying the final
counters, whose `success` field is true exactly when the final execution
state is `completed`; moreover the final state is `completed` if and only
if no exception escaped (the outcome is normal) and no abort was observed
at any flag read. -/
theorem C2_exactly_one_execution_complete (sched : Option Nat) (env : ExecEnv)
    (connectorName : String) (stepMode : Bool) (executionId : String) :
    ((executeRun sched env connectorName stepMode executionId).1.events.filter
        isExecutionComplete
      = [WorkerEvent.executionComplete executionId
          (decide ((executeRun sched env connectorName stepMode executionId).1.state
            = .completed))
          (executeRun sched env connectorName stepMode executionId).1.totalRecords
          (executeRun sched env connectorName stepMode executionId).1.successfulRecords
          (executeRun sched env connectorName stepMode executionId).1.failedRecords])
    ∧ ((executeRun sched env connectorName stepMode executionId).1.state = .completed →
        (executeRun sched env connectorName stepMode executionId).2 = .normal
        ∧ (executeRun sched env connectorName stepMode executionId).1.abortObserved
            = false)
    ∧ ((executeRun sched env connectorName stepMode executionId).2 = .normal →
        (executeRun sched env connectorName stepMode executionId).1.abortObserved
            = false →
        (executeRun sched env connectorName stepMode executionId).1.state
          = .completed) := by
  obtain ⟨e1, e2, e3, e4⟩ := executeBody_facts sched env connectorName stepMode
  rcases hb : executeBody sched env connectorName stepMode with ⟨sB, outB⟩
  rw [hb] at e1 e2 e3 e4
  have hrun : executeRun sched env connectorName stepMode executionId =
      (emitEvent sB (.executionComplete executionId (decide (sB.state = .completed))
        sB.totalRecords sB.successfulRecords sB.failedRecords), outB) := by
    unfold executeRun
    rw [hb]
  rw [hrun]
  constructor
  · show List.filter isExecutionComplete
        (sB.events ++ [WorkerEvent.executionComplete executionId
          (decide (sB.state = .completed)) sB.totalRecords sB.successfulRecords
          sB.failedRecords])
      = [WorkerEvent.executionComplete executionId (decide (sB.state = .completed))
          sB.totalRecords sB.successfulRecords sB.failedRecords]
    rw [List.filter_append]
    have e1s : List.filter isExecutionComplete sB.events = [] := e1
    rw [e1s]
    simp [isExecutionComplete]
  refine ⟨fun hcomp => e2 hcomp, fun hn hobsf => ?_⟩
  rcases e4 hn with hcis | habt
  · exact hcis
  · have hobs : sB.abortObserved = true := (e3 hn).mp habt
    have hobsf2 : sB.abortObserved = false := hobsf
    rw [hobs] at hobsf2
    exact absurd hobsf2 (by simp)

/-- A concrete execution environment: one discovered connector `C`, one
mock record, simulation-mode transform. -/
def mockRunEnv : ExecEnv :=
  { discoveredNames := ["C"]
    loadError := none
    mockData := [[("id", JValue.num 1)]]
    realFetch :=
      { dataClientFound := false, hasGetSourceData := false, stream := [],
        streamRaises := false }
    transform :=
      { hasTransformInstance := false, attempt := fun _ _ => .returnsEmpty,
        freshIds := fun _ => "fresh" } }

/-- C3 counterexample: with one mock record and an abort requested at tick
3 — during the upload phase's `asyncio.sleep`, while the execution is still
live — the execution terminates in state `completed` (not `aborted`), no
exception having escaped, even though the abort flag was set before
`execute` returned. -/
theorem C3_counterexample :
    (executeRun (some 3) mockRunEnv "C" false "e1").1.state = ExecutionState.completed
    ∧ abortNow (some 3) (executeRun (some 3) mockRunEnv "C" false "e1").1.tick = true
    ∧ (executeRun (some 3) mockRunEnv "C" false "e1").2 = ExecOutcome.normal := by
  refine ⟨by decide, by decide, by decide⟩

/-- C3 (amended): `abort` sets the abort flag and releases both the pause
latch and the step gate, so any blocked record-loop iteration unblocks and
observes the flag; and for every run in which no exception escapes, the
terminal state is `aborted` exactly when some abort-flag read observed the
flag set — an abort is honored at the top of every record-loop iteration
and at the two checks after the fetch and transform phases, but an abort
requested after the post-transform check (e.g. during the upload delay) is
never re-checked and the terminal state is `completed`. -/
theorem C3_abort_release_and_observation :
    (∀ c : ConnectorExecutorState,
      c.abort =
        { c with abortRequested := true, pauseEventSet := true, stepEventSet := true })
    ∧ (∀ (sched : Option Nat) (env : ExecEnv) (connectorName : String)
        (stepMode : Bool) (executionId : String),
        (executeRun sched env connectorName stepMode executionId).2 = .normal →
        ((executeRun sched env connectorName stepMode executionId).1.state = .aborted ↔
          (executeRun sched env connectorName stepMode executionId).1.abortObserved
            = true)) := by
  refine ⟨fun c => rfl, fun sched env connectorName stepMode executionId hn => ?_⟩
  obtain ⟨e1, e2, e3, e4⟩ := executeBody_facts sched env connectorName stepMode
  rcases hb : executeBody sched env connectorName stepMode with ⟨sB, outB⟩
  rw [hb] at e3
  have hrun : executeRun sched env connectorName stepMode executionId =
      (emitEvent sB (.executionComplete executionId (decide (sB.state = .completed))
        sB.totalRecords sB.successfulRecords sB.failedRecords), outB) := by
    unfold executeRun
    rw [hb]
  rw [hrun] at hn ⊢
  exact e3 hn

mutual
/-- All statements of the subtree rooted at a statement (the node itself
first, then the subtrees of its body), the spec-side description of what
`ast.walk` can reach. -/
def PyStmt.subtree : PyStmt → List PyStmt
  | .classDef n b body => .classDef n b body :: body.subtreeList
  | .funcDef n body => .funcDef n body :: body.subtreeList
  | .asyncFuncDef n body => .asyncFuncDef n body :: body.subtreeList
  | .strExpr s => [.strExpr s]
  | .otherStmt => [.otherStmt]

/-- Subtrees of all statements of a list, concatenated. -/
def PyStmtList.subtreeList : PyStmtList → List PyStmt
  | .nil => []
  | .cons h t => h.subtree ++ t.subtreeList
end

theorem subtreeList_toList : ∀ l : PyStmtList,
    l.subtreeList = l.toList.flatMap PyStmt.subtree
  | .nil => rfl
  | .cons h t => by
      have ih := subtreeList_toList t
      simp [PyStmtList.subtreeList, PyStmtList.toList, ih]

theorem subtree_unfold (s : PyStmt) :
    s.subtree = s :: s.children.flatMap PyStmt.subtree := by
  cases s <;> simp [PyStmt.subtree, PyStmt.children, subtreeList_toList]

theorem mem_walk : ∀ (l : List PyStmt) (st : PyStmt),
    (st ∈ walkStmts l ↔ st ∈ l.flatMap PyStmt.subtree)
  | [], st => by simp [walkStmts]
  | h :: t, st => by
      have ih := mem_walk ((h :: t).flatMap PyStmt.children) st
      rw [walkStmts]
      constructor
      · intro hm
        rcases List.mem_append.mp hm with hm1 | hm2
        · refine List.mem_flatMap.mpr ⟨st, hm1, ?_⟩
          rw [subtree_unfold]
          exact List.mem_cons_self st _
        · obtain ⟨c, hc, hst⟩ := List.mem_flatMap.mp (ih.mp hm2)
          obtain ⟨r, hr, hcr⟩ := List.mem_flatMap.mp hc
          refine List.mem_flatMap.mpr ⟨r, hr, ?_⟩
          rw [subtree_unfold]
          exact List.mem_cons_of_mem _ (List.mem_flatMap.mpr ⟨c, hcr, hst⟩)
      · intro hm
        obtain ⟨r, hr, hst⟩ := List.mem_flatMap.mp hm
        rw [subtree_unfold] at hst
        rcases List.mem_cons.mp hst with heq | hst2
        · subst heq
          exact List.mem_append.mpr (Or.inl hr)
        · refine List.mem_append.mpr (Or.inr (ih.mpr ?_))
          obtain ⟨c, hc, hst3⟩ := List.mem_flatMap.mp hst2
          exact List.mem_flatMap.mpr ⟨c, List.mem_flatMap.mpr ⟨r, hr, hc⟩, hst3⟩
termination_by l => stmtsWeight l
decreasing_by exact stmtsWeight_flatMap_lt h t

/-- A module whose only top-level statement is a function whose body
defines a class with a `Connector` base — the class exists only inside the
function body. -/
def nestedClassModule : PyStmtList :=
  .cons (.funcDef "make_connector"
    (.cons (.classDef "InnerConnector" [.name "BaseConnector"] .nil) .nil)) .nil

/-- C6 counterexample: `_parse_file_for_connectors` walks the whole AST
(`ast.walk`), so the class nested inside a function body is produced as a
discovery record, although the claim says nested classes never are. -/
theorem C6_counterexample :
    parseFileForConnectors "proj/f.py" "f" nestedClassModule =
      [{ class_name := "InnerConnector", module_path := "f", file_path := "proj/f.py",
         source_type := none, base_classes := ["BaseConnector"], methods := [],
         docstring := none, category := "connector", data_clients := [] }] := by
  simp only [parseFileForConnectors, nestedClassModule, PyStmtList.toList]
  rw [walkStmts]
  simp only [PyStmt.children, PyStmtList.toList, List.flatMap_cons, List.flatMap_nil,
    List.append_nil, List.nil_append]
  rw [walkStmts]
  simp only [PyStmt.children, PyStmtList.toList, List.flatMap_cons, List.flatMap_nil,
    List.append_nil, List.nil_append]
  rw [walkStmts]
  decide

/-- C6 (amended): discovery applies the candidate rule to every class
declaration reachable anywhere in the module's AST — nested inside function
bodies or other classes included, since `ast.walk` traverses the whole
tree — producing exactly one record per reachable class that passes the
rule; the records are therefore not restricted to top-level class
declarations. -/
theorem C6_walk_reaches_all_classes (filePath modulePath : String)
    (moduleBody : PyStmtList) (info : ConnectorInfo) :
    info ∈ parseFileForConnectors filePath modulePath moduleBody ↔
      ∃ n bases cbody, PyStmt.classDef n bases cbody ∈
          moduleBody.toList.flatMap PyStmt.subtree
        ∧ isConnectorClass bases cbody.toList = true
        ∧ info = extractConnectorInfo filePath modulePath n bases cbody.toList := by
  constructor
  · intro hm
    simp only [parseFileForConnectors, List.mem_filterMap] at hm
    obtain ⟨st, hstMem, hf⟩ := hm
    cases st with
    | classDef n bases cbody =>
        dsimp only at hf
        by_cases hrule : isConnectorClass bases cbody.toList = true
        · rw [if_pos hrule] at hf
          refine ⟨n, bases, cbody, (mem_walk moduleBody.toList _).mp hstMem, hrule, ?_⟩
          exact (Option.some.injEq _ _ ▸ hf).symm
        · rw [if_neg hrule] at hf
          exact absurd hf (by simp)
    | funcDef n body => exact absurd hf (by simp)
    | asyncFuncDef n body => exact absurd hf (by simp)
    | strExpr s => exact absurd hf (by simp)
    | otherStmt => exact absurd hf (by simp)
  · rintro ⟨n, bases, cbody, hmem, hrule, heq⟩
    simp only [parseFileForConnectors, List.mem_filterMap]
    refine ⟨.classDef n bases cbody, (mem_walk moduleBody.toList _).mpr hmem, ?_⟩
    dsimp only
    rw [if_pos hrule, heq]

/-- Spec-side linking for claim C5: the class names of the data clients
(records with a `DataClient` base leaf) whose truthy `source_type` equals
the adapter's, in discovery order. -/
def specMatchingClients (allClasses : List ConnectorInfo) (i : ConnectorInfo) :
    List String :=
  match i.source_type with
  | some st =>
      if st = "" then []
      else
        ((allClasses.filter fun d =>
          hasDataClientBase d && decide (d.source_type = some st)).map
            fun d => d.class_name)
  | none => []

/-- Spec-side restatement of `_categorize_and_link` for claim C5: the
output is exactly the non-data-client records, in order, each categorized
`connector` and linked to exactly the matching data clients. -/
def categorizeAndLinkSpec (allClasses : List ConnectorInfo) : List ConnectorInfo :=
  (allClasses.filter fun i => ! hasDataClientBase i).map fun i =>
    { i with category := "connector"
             data_clients := specMatchingClients allClasses i }

theorem categorizeClasses_eq (l : List ConnectorInfo) :
    categorizeClasses l =
      ((l.filter fun i => ! hasDataClientBase i).map
          fun i => { i with category := "connector" },
        (l.filter fun i => hasDataClientBase i).map
          fun i => { i with category := "data_client" }) := by
  induction l with
  | nil => rfl
  | cons info rest ih =>
      simp only [categorizeClasses, ih, List.filter_cons]
      by_cases hd : hasDataClientBase info = true
      · simp [hd]
      · rw [Bool.not_eq_true] at hd
        by_cases hcon : hasConnectorBase info = true
        · simp [hd, hcon]
        · rw [Bool.not_eq_true] at hcon
          simp [hd, hcon]

theorem lookupClients_insertClient (st cn k : String) :
    ∀ m : List (String × List String),
      lookupClients (insertClient m st cn) k =
        if st = k then some (((lookupClients m k).getD []) ++ [cn])
        else lookupClients m k
  | [] => by
      by_cases hsk : st = k
      · simp [insertClient, lookupClients, hsk]
      · simp [insertClient, lookupClients, hsk]
  | (k2, v) :: rest => by
      have ih := lookupClients_insertClient st cn k rest
      by_cases h2s : k2 = st
      · subst h2s
        by_cases hsk : k2 = k
        · subst hsk
          simp [insertClient, lookupClients]
        · simp [insertClient, lookupClients, hsk, if_neg hsk]
      · by_cases h2k : k2 = k
        · subst h2k
          simp [insertClient, lookupClients, h2s, Ne.symm h2s, ih]
        · simp [insertClient, lookupClients, h2s, h2k, ih]

theorem lookupClients_buildAux (st : String) (hst : ¬ st = "") :
    ∀ (dcs : List ConnectorInfo) (m : List (String × List String)),
      lookupClients (dcs.foldl (fun m dc =>
        match dc.source_type with
        | some st2 => if st2 = "" then m else insertClient m st2 dc.class_name
        | none => m) m) st =
      (match lookupClients m st with
       | some v => some (v ++ ((dcs.filter fun d =>
           decide (d.source_type = some st)).map fun d => d.class_name))
       | none =>
           if ((dcs.filter fun d =>
               decide (d.source_type = some st)).map fun d => d.class_name) = [] then
             none
           else
             some ((dcs.filter fun d =>
               decide (d.source_type = some st)).map fun d => d.class_name))
  | [], m => by
      cases hm : lookupClients m st <;> simp [List.foldl_nil, hm]
  | dc :: rest, m => by
      have ih := lookupClients_buildAux st hst rest
      simp only [List.foldl_cons, List.filter_cons]
      cases hsrc : dc.source_type with
      | none =>
          dsimp only
          rw [ih m]
          simp
      | some st2 =>
          dsimp only
          by_cases h2e : st2 = ""
          · rw [if_pos h2e, ih m]
            subst h2e
            have hne : ("" : String) ≠ st := Ne.symm hst
            simp [hne]
          · rw [if_neg h2e, ih (insertClient m st2 dc.class_name),
              lookupClients_insertClient st2 dc.class_name st m]
            by_cases h2s : st2 = st
            · subst h2s
              rw [if_pos rfl]
              cases hm : lookupClients m st2 <;>
                simp [hm, Option.getD, List.append_assoc]
            · rw [if_neg h2s]
              cases hm : lookupClients m st <;> simp [hm, h2s]

theorem filter_map_setDC (st : String) :
    ∀ l : List ConnectorInfo,
      (((l.map fun i => { i with category := "data_client" }).filter fun d =>
          decide (d.source_type = some st)).map fun d => d.class_name)
      = ((l.filter fun d => decide (d.source_type = some st)).map fun d => d.class_name)
  | [] => rfl
  | i :: rest => by
      have ih := filter_map_setDC st rest
      by_cases hp : i.source_type = some st
      · simp [List.filter_cons, hp, ih]
      · simp [List.filter_cons, hp, ih]

/-- C5: `_categorize_and_link` equals its spec-side restatement whenever
every input record still carries the default empty `data_clients` (as every
record produced by `_parse_file_for_connectors` does): the output is
exactly the records without a `DataClient` base leaf, in order, each
categorized as an adapter, and each holding exactly the class names of the
data clients whose (truthy) `source_type` equals its own — the empty list
when no data client matches.  Data clients never appear as top-level
records. -/
theorem C5_categorize_and_link (allClasses : List ConnectorInfo)
    (h : ∀ i ∈ allClasses, i.data_clients = []) :
    categorizeAndLink allClasses = categorizeAndLinkSpec allClasses := by
  unfold categorizeAndLink categorizeAndLinkSpec
  rw [categorizeClasses_eq]
  unfold linkConnectors
  dsimp only
  rw [List.map_map]
  apply List.map_congr_left
  intro i hi
  have hidc : i.data_clients = [] := h i (List.mem_of_mem_filter hi)
  obtain ⟨cn, mp, fp, src, bc, ms, doc, cat, dcl⟩ := i
  simp only at hidc
  subst hidc
  cases src with
  | none => rfl
  | some st =>
      dsimp only [Function.comp, specMatchingClients]
      by_cases hse : st = ""
      · rw [if_pos hse, if_pos hse]
      · rw [if_neg hse, if_neg hse]
        unfold buildSourceTypeMap
        rw [lookupClients_buildAux st hse
          ((List.filter (fun i => hasDataClientBase i) allClasses).map
            fun i => { i with category := "data_client" }) []]
        have hnone : lookupClients [] st = none := rfl
        rw [hnone]
        rw [filter_map_setDC st (List.filter (fun i => hasDataClientBase i) allClasses)]
        rw [List.filter_filter]
        by_cases hnames : ((allClasses.filter fun d =>
            decide (d.source_type = some st) && hasDataClientBase d).map
              fun d => d.class_name) = []
        · rw [if_pos hnames]
          have hswap : (allClasses.filter fun d =>
              hasDataClientBase d && decide (d.source_type = some st)) =
              (allClasses.filter fun d =>
                decide (d.source_type = some st) && hasDataClientBase d) := by
            apply List.filter_congr
            intro a _
            exact Bool.and_comm _ _
          rw [hswap, hnames]
        · rw [if_neg hnames]
          have hswap : (allClasses.filter fun d =>
              hasDataClientBase d && decide (d.source_type = some st)) =
              (allClasses.filter fun d =>
                decide (d.source_type = some st) && hasDataClientBase d) := by
            apply List.filter_congr
            intro a _
            exact Bool.and_comm _ _
          rw [hswap]

/-- The discovery records of the two-adapters-one-data-client scenario, as
`_parse_file_for_connectors` would produce them (default category and empty
`data_clients`). -/
def scenarioClasses : List ConnectorInfo :=
  [{ class_name := "AConnector", module_path := "a", file_path := "proj/a.py",
     source_type := some "DocA", base_classes := ["BaseConnector"] },
   { class_name := "BConnector", module_path := "a", file_path := "proj/a.py",
     source_type := some "DocB", base_classes := ["BaseConnector"] },
   { class_name := "ADataClient", module_path := "b", file_path := "proj/b.py",
     source_type := some "DocA", base_classes := ["BaseDataClient"] }]

/-- C5 witness: the categorize-and-link equation applied to the concrete
two-adapters-one-data-client scenario. -/
theorem C5_categorize_and_link_witness :
    categorizeAndLink scenarioClasses = categorizeAndLinkSpec scenarioClasses :=
  C5_categorize_and_link scenarioClasses (by decide)
